import Mathlib

/-!
Verification of the duplex byte-stream transport layer in
`src/cockpit/transports.py` (class `_Transport` and its endpoint
specializations `SubprocessTransport`, `SocketTransport`, `StdioTransport`,
and the auxiliary `Spooler`).

The Python class is shallowly embedded as a state machine: the mutable
attributes of a `_Transport` instance become the fields of `TState`, each
method becomes a function from states to states, and the two external
collaborators become explicit data:

* the kernel (results of `os.read`, `os.write`, `os.writev`) is an oracle
  argument (`ReadRes` / `WriteRes`) supplied per call;
* the consumer (`asyncio.BaseProtocol`) and the kernel byte sink are
  observed through an emitted `Event` trace; reactor registration
  (`loop.add_reader` / `loop.remove_reader` / `loop.add_writer` /
  `loop.remove_writer`) is tracked in two boolean state fields.

Python exceptions escaping a method (`assert` failures, re-raised `IOError`,
`IndexError` from `deque.popleft`) are modelled with `Except Err`.
-/

namespace Cockpit

/-- A byte block (Python `bytes`), modelled as a list of byte values. -/
abbrev Bytes := List Nat

/-- The mutable state of a `_Transport` instance: fields `_queue`, `_in_fd`,
`_out_fd`, `_closing`, `_is_reading`, `_eof`, `_eio_is_eof`, together with
the reactor registration status of the two file descriptors (whether
`loop.add_reader(in_fd, ...)` resp. `loop.add_writer(out_fd, ...)` is
currently in effect). -/
structure TState where
  queue : Option (List Bytes)
  in_fd : Int
  out_fd : Int
  closing : Bool
  is_reading : Bool
  eof : Bool
  eio_is_eof : Bool
  reader_registered : Bool
  writer_registered : Bool
deriving Repr, DecidableEq

/-- Observable actions of a transport: calls into the consumer protocol
(`connection_made`, `data_received`, `eof_received`, `connection_lost`,
`pause_writing`, `resume_writing`), the endpoint-specific half-close action
`_write_eof_now`, and the bytes accepted by the kernel on the out-fd
(`kernel_accepted`). -/
inductive Event where
  | connection_made
  | data_received (data : Bytes)
  | eof_received
  | connection_lost (exc : Option Unit)
  | pause_writing
  | resume_writing
  | write_eof_now
  | kernel_accepted (data : Bytes)
deriving Repr, DecidableEq

/-- Python exceptions that can escape a transport method. -/
inductive Err where
  | assertionError
  | ioError
  | indexError
deriving Repr, DecidableEq

/-- Result of the non-blocking kernel write (`os.write` / `os.writev`):
either `n` bytes were accepted, or the call raised `BrokenPipeError`. -/
inductive WriteRes where
  | ok (n : Nat)
  | brokenPipe
deriving Repr, DecidableEq

/-- Result of the non-blocking kernel read (`os.read`): either a byte block
(possibly empty, meaning EOF) or an `IOError`. -/
inductive ReadRes where
  | ok (data : Bytes)
  | ioError
deriving Repr, DecidableEq

/-- `_Transport.pause_reading`: if currently reading, unregister the reader
and clear the flag; otherwise do nothing. -/
def pause_reading (s : TState) : TState :=
  if s.is_reading then
    { s with reader_registered := false, is_reading := false }
  else s

/-- `_Transport.resume_reading`: register the reader only if not already
reading and the in-fd has not been invalidated. -/
def resume_reading (s : TState) : TState :=
  if !s.is_reading && s.in_fd != -1 then
    { s with reader_registered := true, is_reading := true }
  else s

/-- `_Transport._close_reader`: `pause_reading()` then invalidate the in-fd. -/
def close_reader (s : TState) : TState :=
  { pause_reading s with in_fd := -1 }

/-- `_Transport._remove_write_queue`: if a queue is present, call
`resume_writing()` on the protocol, unregister the writer and drop the
queue; otherwise do nothing. -/
def remove_write_queue (s : TState) : TState × List Event :=
  match s.queue with
  | some _ =>
    ({ s with writer_registered := false, queue := none }, [Event.resume_writing])
  | none => (s, [])

/-- `_Transport._create_write_queue`: register the writer, create a queue
holding `data`, and call `pause_writing()` on the protocol.  (The source
asserts that no queue is present; the model is only invoked under that
guard.) -/
def create_write_queue (data : Bytes) (s : TState) : TState × List Event :=
  ({ s with writer_registered := true, queue := some [data] }, [Event.pause_writing])

/-- `_Transport.abort`: set closing, tear the reader down, discard the write
queue (signalling `resume_writing` if one was present) and call
`connection_lost(None)` on the protocol. -/
def abort (s : TState) : TState × List Event :=
  let s1 := close_reader { s with closing := true }
  let p := remove_write_queue s1
  (p.1, p.2 ++ [Event.connection_lost none])

/-- `_Transport.write_eof`: `assert not self._eof`, set the flag, and if no
queue is outstanding perform the endpoint half-close `_write_eof_now()`
immediately.  Note that the source does not consult `_closing`. -/
def write_eof (s : TState) : Except Err (TState × List Event) :=
  if s.eof then Except.error Err.assertionError
  else
    let s1 := { s with eof := true }
    match s1.queue with
    | none => Except.ok (s1, [Event.write_eof_now])
    | some _ => Except.ok (s1, [])

/-- `_Transport.get_write_buffer_size`: 0 without a queue, otherwise the sum
of the queued block lengths. -/
def get_write_buffer_size (s : TState) : Nat :=
  match s.queue with
  | none => 0
  | some q => (q.map List.length).sum

/-- `_Transport.write`: assert not closing and not write-EOF; if a queue is
outstanding, append the block; otherwise attempt one synchronous
non-blocking `os.write` (`res` is the kernel's answer): on `BrokenPipeError`
abort and return, otherwise queue the unwritten remainder (if any). -/
def write (data : Bytes) (res : WriteRes) (s : TState) : Except Err (TState × List Event) :=
  if s.closing then Except.error Err.assertionError
  else if s.eof then Except.error Err.assertionError
  else
    match s.queue with
    | some q => Except.ok ({ s with queue := some (q ++ [data]) }, [])
    | none =>
      match res with
      | WriteRes.brokenPipe => Except.ok (abort s)
      | WriteRes.ok n =>
        if n != data.length then
          let p := create_write_queue (data.drop n) s
          Except.ok (p.1, Event.kernel_accepted (data.take n) :: p.2)
        else
          Except.ok (s, [Event.kernel_accepted (data.take n)])

/-- The `while n_bytes:` loop of `_Transport._write_ready`, acting on the
queue with `n` the count of bytes the kernel accepted.  Returns the queue
left behind and whether the loop exited via `break` (a partially-written
block was split and pushed back); `none` models the `IndexError` that
`popleft` would raise if `n` exceeded the queued bytes.  Exiting with the
count exactly exhausted — even at a block boundary with blocks remaining —
is *not* a `break`, so the source's `else:` clause runs in that case. -/
def drain : List Bytes → Nat → Option (List Bytes × Bool)
  | q, 0 => some (q, false)
  | [], _ + 1 => none
  | block :: rest, n + 1 =>
    if block.length > n + 1 then
      some (block.drop (n + 1) :: rest, true)
    else
      drain rest (n + 1 - block.length)

/-- `_Transport._write_ready` (the write-readiness reactor callback):
assert a queue is present; gather-write the queued blocks (the source calls
`os.writev(self._queue)`, which as written omits the required fd argument —
the model takes the intended kernel answer for the out-fd as the oracle
`res`); on `BrokenPipeError` abort; otherwise consume the queue per `drain`.
If the loop did not `break`, the source runs its `else:` clause:
`_remove_write_queue()` (discarding whatever still sits in the queue), then
`_write_eof_now()` plus `self._consider_closing()` if EOF was requested, then
`self.abort()` if closing.  `_consider_closing` is modelled from the spec:
it is referenced here but defined nowhere in the repository; per the spec's
drain sequence the deferred full close is exactly the `if self._closing:
self.abort()` that follows, so the call is modelled as a no-op. -/
def write_ready (res : WriteRes) (s : TState) : Except Err (TState × List Event) :=
  match s.queue with
  | none => Except.error Err.assertionError
  | some q =>
    match res with
    | WriteRes.brokenPipe => Except.ok (abort s)
    | WriteRes.ok n =>
      let acc := Event.kernel_accepted (q.flatten.take n)
      match drain q n with
      | none => Except.error Err.indexError
      | some (q2, broke) =>
        if broke then
          Except.ok ({ s with queue := some q2 }, [acc])
        else
          let p1 := remove_write_queue { s with queue := some q2 }
          if p1.1.eof then
            if p1.1.closing then
              let p2 := abort p1.1
              Except.ok (p2.1, acc :: p1.2 ++ Event.write_eof_now :: p2.2)
            else
              Except.ok (p1.1, acc :: p1.2 ++ [Event.write_eof_now])
          else
            if p1.1.closing then
              let p2 := abort p1.1
              Except.ok (p2.1, acc :: p1.2 ++ p2.2)
            else
              Except.ok (p1.1, acc :: p1.2)

/-- `_Transport.close`: return if already closing; otherwise set closing and
tear the reader down; with a queue outstanding defer the rest to
`_write_ready`, otherwise abort now. -/
def close (s : TState) : TState × List Event :=
  if s.closing then (s, [])
  else
    let s1 := close_reader { s with closing := true }
    match s1.queue with
    | some _ => (s1, [])
    | none => abort s1

/-- Shared tail of `_Transport._read_ready` once the read result `data` is
known: a non-empty block goes to `data_received`; an empty block is EOF —
`_close_reader()`, then `eof_received()` (whose return value is the oracle
`keep_open`), then `close()` unless the consumer keeps the transport open. -/
def read_result (data : Bytes) (keep_open : Bool) (s : TState) : TState × List Event :=
  if data != [] then (s, [Event.data_received data])
  else
    let s1 := close_reader s
    if keep_open then (s1, [Event.eof_received])
    else
      let p := close s1
      (p.1, Event.eof_received :: p.2)

/-- `_Transport._read_ready` (the read-readiness reactor callback):
`os.read` yields `res`; an `IOError` is re-raised unless `_eio_is_eof` is
set (PTY devices return EIO to mean EOF), in which case it is treated as an
empty read. -/
def read_ready (res : ReadRes) (keep_open : Bool) (s : TState) : Except Err (TState × List Event) :=
  match res with
  | ReadRes.ok data => Except.ok (read_result data keep_open s)
  | ReadRes.ioError =>
    if s.eio_is_eof then Except.ok (read_result [] keep_open s)
    else Except.error Err.ioError

/-- `_Transport.__init__` with the given fds and EIO flag: all fields reset,
then `connection_made` on the protocol, then `resume_reading()`. -/
def initState (in_fd out_fd : Int) (eio : Bool) : TState × List Event :=
  let s0 : TState :=
    { queue := none, in_fd := in_fd, out_fd := out_fd, closing := false,
      is_reading := false, eof := false, eio_is_eof := eio,
      reader_registered := false, writer_registered := false }
  (resume_reading s0, [Event.connection_made])

/-- An externally triggered transport operation: a consumer call (`write`,
`write_eof`, `close`, `abort`, `pause_reading`, `resume_reading`) or a
reactor readiness dispatch (`_read_ready`, `_write_ready`), with the kernel
oracle results attached. -/
inductive Op where
  | write (data : Bytes) (res : WriteRes)
  | writeEof
  | close
  | abort
  | pauseReading
  | resumeReading
  | readReady (res : ReadRes) (keep_open : Bool)
  | writeReady (res : WriteRes)
deriving Repr, DecidableEq

/-- Dispatch one operation against the transport state. -/
def step (s : TState) : Op → Except Err (TState × List Event)
  | Op.write d r => write d r s
  | Op.writeEof => write_eof s
  | Op.close => Except.ok (close s)
  | Op.abort => Except.ok (abort s)
  | Op.pauseReading => Except.ok (pause_reading s, [])
  | Op.resumeReading => Except.ok (resume_reading s, [])
  | Op.readReady r k => read_ready r k s
  | Op.writeReady r => write_ready r s

/-- Environment consistency of an operation: the reactor dispatches
`_read_ready` only while the reader is registered and `_write_ready` only
while the writer is registered, and the kernel never reports more accepted
bytes than were offered. -/
def validOp (s : TState) : Op → Bool
  | Op.write d (WriteRes.ok n) => decide (n ≤ d.length)
  | Op.write _ WriteRes.brokenPipe => true
  | Op.readReady _ _ => s.reader_registered
  | Op.writeReady (WriteRes.ok n) =>
    s.writer_registered && decide (n ≤ get_write_buffer_size s)
  | Op.writeReady WriteRes.brokenPipe => s.writer_registered
  | _ => true

/-- Execute a list of operations, stopping with `none` if an operation is
environment-inconsistent or raises. -/
def runList : TState → List Op → Option (TState × List Event)
  | s, [] => some (s, [])
  | s, op :: ops =>
    if validOp s op then
      match step s op with
      | Except.ok (s1, ev) =>
        match runList s1 ops with
        | some (s2, tr) => some (s2, ev ++ tr)
        | none => none
      | Except.error _ => none
    else none

/-- Final state of an operation run, when it completes. -/
def runFinal (s : TState) (ops : List Op) : Option TState :=
  match runList s ops with
  | some p => some p.1
  | none => none

/-- Emitted trace of an operation run, when it completes. -/
def runTrace (s : TState) (ops : List Op) : Option (List Event) :=
  match runList s ops with
  | some p => some p.2
  | none => none

/-- Reachability: `Steps s ops s2 tr` holds when the environment-consistent
operations `ops` drive the transport from `s` to `s2` emitting trace `tr`. -/
inductive Steps : TState → List Op → TState → List Event → Prop
  | nil (s : TState) : Steps s [] s []
  | cons {s s1 s2 : TState} {op : Op} {ops : List Op} {ev tr : List Event} :
      validOp s op = true →
      step s op = Except.ok (s1, ev) →
      Steps s1 ops s2 tr →
      Steps s (op :: ops) s2 (ev ++ tr)

/-- Guard for runs that never call `abort()` on an already-closing
transport. -/
def guardOk (s : TState) : Op → Bool
  | Op.abort => !s.closing
  | _ => true

/-- Reachability via guarded runs: like `Steps`, but `abort()` is only ever
invoked on a transport that is not already closing. -/
inductive GSteps : TState → List Op → TState → List Event → Prop
  | nil (s : TState) : GSteps s [] s []
  | cons {s s1 s2 : TState} {op : Op} {ops : List Op} {ev tr : List Event} :
      validOp s op = true →
      guardOk s op = true →
      step s op = Except.ok (s1, ev) →
      GSteps s1 ops s2 tr →
      GSteps s (op :: ops) s2 (ev ++ tr)

/-- Is this event a `connection_lost` call? -/
def isCL : Event → Bool
  | Event.connection_lost _ => true
  | _ => false

/-- Is this event an `eof_received` call? -/
def isEofReceived : Event → Bool
  | Event.eof_received => true
  | _ => false

/-- Is this event a call into the consumer protocol (as opposed to an
endpoint action or a kernel acceptance)? -/
def consumerEv : Event → Bool
  | Event.write_eof_now => false
  | Event.kernel_accepted _ => false
  | _ => true

/-- Flow-control tag of an event: `true` for `pause_writing`, `false` for
`resume_writing`, nothing otherwise. -/
def flowTag : Event → Option Bool
  | Event.pause_writing => some true
  | Event.resume_writing => some false
  | _ => none

/-- Number of `connection_lost` calls in a trace. -/
def clCount (tr : List Event) : Nat := tr.countP isCL

/-- Number of `eof_received` calls in a trace. -/
def eofCount (tr : List Event) : Nat := tr.countP isEofReceived

/-- The flow-control calls of a trace, as tags. -/
def flowTags (tr : List Event) : List Bool := tr.filterMap flowTag

/-- Concatenation of all bytes the kernel accepted on the out-fd over a
trace. -/
def acceptedBytes (tr : List Event) : List Nat :=
  (tr.filterMap fun e =>
    match e with
    | Event.kernel_accepted d => some d
    | _ => none).flatten

/-- The part of a trace strictly after the first `connection_lost` call
(empty if there is none). -/
def afterFirstCL (tr : List Event) : List Event :=
  (tr.dropWhile fun e => !isCL e).tail

/-- Checks that a list of flow tags strictly alternates, starting with the
expected tag `b`, and returns the next expected tag. -/
def altRun : Bool → List Bool → Option Bool
  | b, [] => some b
  | b, x :: xs => if x = b then altRun (!b) xs else none

/-- Well-formedness of a transport state, maintained by every
environment-consistent operation: the reading flag mirrors the reactor
registration of the in-fd, the writer registration mirrors the presence of
a write queue, an invalidated in-fd is never being read, and a closing
transport has its in-fd invalidated. -/
def Wf (s : TState) : Prop :=
  s.reader_registered = s.is_reading ∧
  s.writer_registered = s.queue.isSome ∧
  (s.in_fd = -1 → s.is_reading = false) ∧
  (s.closing = true → s.in_fd = -1)

instance (s : TState) : Decidable (Wf s) := by
  unfold Wf
  infer_instance

/-- A transport that has been aborted (or will never accept further work):
closing with no outstanding write queue. -/
def Dead (s : TState) : Prop := s.closing = true ∧ s.queue = none

instance (s : TState) : Decidable (Dead s) := by
  unfold Dead
  infer_instance

/-- How a standard stream of the child is wired in the `subprocess.Popen`
call: a fresh pipe (`subprocess.PIPE`) or a pre-existing descriptor (the
PTY subordinate `session_fd`). -/
inductive StdioArg where
  | pipe
  | fd (n : Int)
deriving Repr, DecidableEq

/-- The arguments `SubprocessTransport.__init__` passes to
`subprocess.Popen`: how each standard stream is wired (`none` for stderr
means the caller's kwargs did not redirect it) and whether the child is
started as a new session leader. -/
structure SpawnCall where
  stdinArg : StdioArg
  stdoutArg : StdioArg
  stderrArg : Option StdioArg
  start_new_session : Bool
deriving Repr, DecidableEq

/-- The spawned process handle.  Per the `subprocess.Popen` contract, the
`stdin`/`stdout`/`stderr` attributes are file objects exactly when the
corresponding argument was `PIPE`, and `None` otherwise. -/
structure ProcessModel where
  stdin_is_pipe : Bool
  stdout_is_pipe : Bool
  stderr_is_pipe : Bool
deriving Repr, DecidableEq

/-- `subprocess.Popen`, reduced to the attribute shape the transport
consults. -/
def spawn (c : SpawnCall) : ProcessModel :=
  { stdin_is_pipe := c.stdinArg == StdioArg.pipe
    stdout_is_pipe := c.stdoutArg == StdioArg.pipe
    stderr_is_pipe := c.stderrArg == some StdioArg.pipe }

/-- `Spooler` state: the duplicated fd (`-1` once released) and the
collected byte blocks. -/
structure Spooler where
  fd : Int
  contents : List Bytes
deriving Repr, DecidableEq

/-- `Spooler.get`: drain the data `select` currently reports ready (the
oracle `ready`, the non-empty chunks available without blocking) into the
buffer and join everything collected so far. -/
def Spooler.get (sp : Spooler) (ready : List Bytes) : List Nat :=
  (sp.contents ++ ready).flatten

/-- The extra state of a `SubprocessTransport` on top of the generic
transport state: the optional PTY controlling fd, the `Popen` handle, and
the stderr `Spooler` (present exactly when `process.stderr` is a pipe). -/
structure SubprocessTransport where
  base : TState
  pty_fd : Option Int
  process : ProcessModel
  stderr_spooler : Option Spooler
deriving Repr, DecidableEq

/-- `SubprocessTransport.__init__`.  With `pty` true: open a PTY pair
(`pty_fd`/`session_fd` is the oracle for `os.openpty()`), attach all three
child standard streams to the subordinate `session_fd` (stderr via
`kwargs['stderr'] = session_fd`, overriding any caller value), start the
child as a session leader, use the controlling fd for both transport
directions, and flag EIO-as-EOF.  With `pty` false: stdin and stdout are
fresh pipes (their fds are the oracles `stdout_fd`/`stdin_fd`) and stderr
is whatever the caller's kwargs say.  In both cases a `Spooler` over a
duplicate (`dup_fd`) of `process.stderr` is created exactly when that
attribute is a pipe.  Returns the transport together with the `Popen` call
performed. -/
def subprocess_init (pty : Bool) (kwargs_stderr : Option StdioArg)
    (pty_fd session_fd stdout_fd stdin_fd dup_fd : Int) :
    SubprocessTransport × SpawnCall :=
  if pty then
    let call : SpawnCall :=
      { stdinArg := StdioArg.fd session_fd
        stdoutArg := StdioArg.fd session_fd
        stderrArg := some (StdioArg.fd session_fd)
        start_new_session := true }
    let proc := spawn call
    ({ base := (initState pty_fd pty_fd true).1
       pty_fd := some pty_fd
       process := proc
       stderr_spooler :=
         if proc.stderr_is_pipe then some { fd := dup_fd, contents := [] } else none },
     call)
  else
    let call : SpawnCall :=
      { stdinArg := StdioArg.pipe
        stdoutArg := StdioArg.pipe
        stderrArg := kwargs_stderr
        start_new_session := false }
    let proc := spawn call
    ({ base := (initState stdout_fd stdin_fd false).1
       pty_fd := none
       process := proc
       stderr_spooler :=
         if proc.stderr_is_pipe then some { fd := dup_fd, contents := [] } else none },
     call)

/-- `SubprocessTransport.get_stderr`: drain and join the stderr `Spooler`,
or return the empty byte string when stderr was not piped. -/
def get_stderr (t : SubprocessTransport) (ready : List Bytes) : List Nat :=
  match t.stderr_spooler with
  | some sp => sp.get ready
  | none => []

/-- `SubprocessTransport.can_write_eof`: true iff `process.stdin` is a pipe
object owned by the transport. -/
def can_write_eof (t : SubprocessTransport) : Bool :=
  t.process.stdin_is_pipe

/-- `SubprocessTransport._write_eof_now`: close the child's stdin pipe and
invalidate the out-fd — a no-op when `process.stdin` is `None` (the PTY
case). -/
def subprocess_write_eof_now (t : SubprocessTransport) : SubprocessTransport :=
  if t.process.stdin_is_pipe then
    { t with base := { t.base with out_fd := -1 } }
  else t

theorem close_reader_eq {s : TState} (h1 : s.reader_registered = s.is_reading) :
    close_reader s =
      { s with in_fd := -1, is_reading := false, reader_registered := false } := by
  cases s
  cases h1
  unfold close_reader pause_reading
  split <;> simp_all

theorem abort_eq {s : TState} (h1 : s.reader_registered = s.is_reading)
    (h2 : s.writer_registered = s.queue.isSome) :
    abort s =
      ({ s with
          closing := true
          in_fd := -1
          is_reading := false
          reader_registered := false
          writer_registered := false
          queue := none },
       (if s.queue.isSome then [Event.resume_writing] else []) ++
         [Event.connection_lost none]) := by
  cases s with
  | mk q ifd ofd cl rd eo eio rr wr =>
    cases h1
    cases q <;> cases rd <;>
      simp_all [abort, remove_write_queue, close_reader, pause_reading]

theorem write_char (d : Bytes) (r : WriteRes) (s : TState) :
    (s.closing = true ∧ write d r s = Except.error Err.assertionError) ∨
    (s.closing = false ∧ s.eof = true ∧ write d r s = Except.error Err.assertionError) ∨
    (s.closing = false ∧ s.eof = false ∧
      ((∃ q, s.queue = some q ∧
          write d r s = Except.ok ({ s with queue := some (q ++ [d]) }, [])) ∨
       (s.queue = none ∧ r = WriteRes.brokenPipe ∧
          write d r s = Except.ok (abort s)) ∨
       (∃ n, s.queue = none ∧ r = WriteRes.ok n ∧ n = d.length ∧
          write d r s = Except.ok (s, [Event.kernel_accepted (d.take n)])) ∨
       (∃ n, s.queue = none ∧ r = WriteRes.ok n ∧ n ≠ d.length ∧
          write d r s =
            Except.ok ({ s with writer_registered := true, queue := some [d.drop n] },
              [Event.kernel_accepted (d.take n), Event.pause_writing])))) := by
  unfold write
  cases hc : s.closing
  case true => simp
  case false =>
    cases he : s.eof
    case true => simp
    case false =>
      cases hq : s.queue with
      | some q => simp
      | none =>
        cases r with
        | brokenPipe => simp
        | ok n =>
          by_cases hn : n = d.length
          · simp [create_write_queue, hn, hc, he]
          · simp [create_write_queue, hn, hc, he]

theorem write_eof_char (s : TState) :
    (s.eof = true ∧ write_eof s = Except.error Err.assertionError) ∨
    (s.eof = false ∧ s.queue = none ∧
      write_eof s = Except.ok ({ s with eof := true }, [Event.write_eof_now])) ∨
    (s.eof = false ∧ (∃ q, s.queue = some q) ∧
      write_eof s = Except.ok ({ s with eof := true }, [])) := by
  unfold write_eof
  cases he : s.eof
  case true => simp
  case false => cases hq : s.queue <;> simp

theorem close_char (s : TState) (h1 : s.reader_registered = s.is_reading)
    (h2 : s.writer_registered = s.queue.isSome) :
    (s.closing = true ∧ close s = (s, [])) ∨
    (s.closing = false ∧ (∃ q, s.queue = some q) ∧
      close s =
        ({ s with
            closing := true
            in_fd := -1
            is_reading := false
            reader_registered := false }, [])) ∨
    (s.closing = false ∧ s.queue = none ∧
      close s =
        ({ s with
            closing := true
            in_fd := -1
            is_reading := false
            reader_registered := false
            writer_registered := false
            queue := none },
         [Event.connection_lost none])) := by
  cases s with
  | mk q ifd ofd cl rd eo eio rr wr =>
    cases h1
    cases q <;> cases rd <;> cases cl <;>
      simp_all [close, close_reader, pause_reading, abort, remove_write_queue]

theorem read_result_char (data : Bytes) (keep_open : Bool) (s : TState)
    (h1 : s.reader_registered = s.is_reading)
    (h2 : s.writer_registered = s.queue.isSome)
    (hc : s.closing = false) :
    (data ≠ [] ∧ read_result data keep_open s = (s, [Event.data_received data])) ∨
    (data = [] ∧ keep_open = true ∧
      read_result data keep_open s =
        ({ s with
            in_fd := -1
            is_reading := false
            reader_registered := false }, [Event.eof_received])) ∨
    (data = [] ∧ keep_open = false ∧ (∃ q, s.queue = some q) ∧
      read_result data keep_open s =
        ({ s with
            closing := true
            in_fd := -1
            is_reading := false
            reader_registered := false }, [Event.eof_received])) ∨
    (data = [] ∧ keep_open = false ∧ s.queue = none ∧
      read_result data keep_open s =
        ({ s with
            closing := true
            in_fd := -1
            is_reading := false
            reader_registered := false
            writer_registered := false
            queue := none },
         [Event.eof_received, Event.connection_lost none])) := by
  cases s with
  | mk q ifd ofd cl rd eo eio rr wr =>
    cases h1
    cases hc
    rcases data with - | ⟨b, data⟩
    · cases keep_open <;> cases q <;> cases rd <;>
        simp_all [read_result, close, close_reader, pause_reading, abort,
          remove_write_queue]
    · simp [read_result]

theorem write_ready_char (r : WriteRes) (s : TState)
    (h1 : s.reader_registered = s.is_reading)
    (h2 : s.writer_registered = s.queue.isSome) :
    (s.queue = none ∧ write_ready r s = Except.error Err.assertionError) ∨
    (∃ q, s.queue = some q ∧
      ((r = WriteRes.brokenPipe ∧ write_ready r s = Except.ok (abort s)) ∨
       (∃ n, r = WriteRes.ok n ∧
         ((drain q n = none ∧ write_ready r s = Except.error Err.indexError) ∨
          (∃ q2, drain q n = some (q2, true) ∧
            write_ready r s =
              Except.ok ({ s with queue := some q2 },
                [Event.kernel_accepted (q.flatten.take n)])) ∨
          (∃ q2, drain q n = some (q2, false) ∧ s.eof = false ∧ s.closing = false ∧
            write_ready r s =
              Except.ok ({ s with writer_registered := false, queue := none },
                [Event.kernel_accepted (q.flatten.take n), Event.resume_writing])) ∨
          (∃ q2, drain q n = some (q2, false) ∧ s.eof = true ∧ s.closing = false ∧
            write_ready r s =
              Except.ok ({ s with writer_registered := false, queue := none },
                [Event.kernel_accepted (q.flatten.take n), Event.resume_writing,
                 Event.write_eof_now])) ∨
          (∃ q2, drain q n = some (q2, false) ∧ s.eof = false ∧ s.closing = true ∧
            write_ready r s =
              Except.ok
                ({ s with
                    closing := true
                    in_fd := -1
                    is_reading := false
                    reader_registered := false
                    writer_registered := false
                    queue := none },
                 [Event.kernel_accepted (q.flatten.take n), Event.resume_writing,
                  Event.connection_lost none])) ∨
          (∃ q2, drain q n = some (q2, false) ∧ s.eof = true ∧ s.closing = true ∧
            write_ready r s =
              Except.ok
                ({ s with
                    closing := true
                    in_fd := -1
                    is_reading := false
                    reader_registered := false
                    writer_registered := false
                    queue := none },
                 [Event.kernel_accepted (q.flatten.take n), Event.resume_writing,
                  Event.write_eof_now, Event.connection_lost none])))))) := by
  cases s with
  | mk q ifd ofd cl rd eo eio rr wr =>
    cases h1
    cases q with
    | none => simp [write_ready]
    | some ql =>
      cases r with
      | brokenPipe => simp [write_ready]
      | ok n =>
        rcases hd : drain ql n with - | ⟨q2, b⟩
        · simp_all [write_ready]
        · cases b <;> cases eo <;> cases cl <;> cases rd <;>
            simp_all [write_ready, remove_write_queue, abort, close_reader,
              pause_reading]

theorem wf_pause {s : TState} (hw : Wf s) : Wf (pause_reading s) := by
  obtain ⟨h1, h2, h3, h4⟩ := hw
  unfold pause_reading
  split
  · exact ⟨rfl, h2, fun _ => rfl, h4⟩
  · exact ⟨h1, h2, h3, h4⟩

theorem wf_resume {s : TState} (hw : Wf s) : Wf (resume_reading s) := by
  obtain ⟨h1, h2, h3, h4⟩ := hw
  unfold resume_reading
  split
  case isTrue h =>
    simp only [Bool.and_eq_true, bne_iff_ne] at h
    exact ⟨rfl, h2, fun hfd => absurd hfd h.2, fun hcl => h4 hcl⟩
  case isFalse h => exact ⟨h1, h2, h3, h4⟩

theorem reader_open {s : TState} (hw : Wf s) (hr : s.reader_registered = true) :
    s.is_reading = true ∧ s.in_fd ≠ -1 ∧ s.closing = false := by
  obtain ⟨h1, h2, h3, h4⟩ := hw
  rw [hr] at h1
  have hrd : s.is_reading = true := h1.symm
  have hfd : s.in_fd ≠ -1 := fun h => by simp [h3 h] at hrd
  have hcl : s.closing = false := by
    cases hcl : s.closing
    · rfl
    · exact absurd (h4 hcl) hfd
  exact ⟨hrd, hfd, hcl⟩

theorem wf_step {s s1 : TState} {op : Op} {ev : List Event}
    (hw : Wf s) (hv : validOp s op = true)
    (hs : step s op = Except.ok (s1, ev)) : Wf s1 := by
  obtain ⟨h1, h2, h3, h4⟩ := hw
  cases op with
  | write d r =>
    simp only [step] at hs
    rcases write_char d r s with ⟨hc, h⟩ | ⟨hc, he, h⟩ |
      ⟨hc, he, ⟨q, hq, h⟩ | ⟨hq, hr, h⟩ | ⟨n, hq, hr, hn, h⟩ | ⟨n, hq, hr, hn, h⟩⟩
    · rw [h] at hs; simp at hs
    · rw [h] at hs; simp at hs
    · rw [h] at hs
      injection Except.ok.inj hs with hxa hxb
      subst hxa
      exact ⟨h1, by simp_all, h3, h4⟩
    · rw [abort_eq h1 h2] at h
      rw [h] at hs
      injection Except.ok.inj hs with hxa hxb
      subst hxa
      exact ⟨rfl, rfl, fun _ => rfl, fun _ => rfl⟩
    · rw [h] at hs
      injection Except.ok.inj hs with hxa hxb
      subst hxa
      exact ⟨h1, h2, h3, h4⟩
    · rw [h] at hs
      injection Except.ok.inj hs with hxa hxb
      subst hxa
      exact ⟨h1, rfl, h3, h4⟩
  | writeEof =>
    simp only [step] at hs
    rcases write_eof_char s with ⟨he, h⟩ | ⟨he, hq, h⟩ | ⟨he, ⟨q, hq⟩, h⟩ <;>
      rw [h] at hs
    · simp at hs
    · injection Except.ok.inj hs with hxa hxb
      subst hxa
      exact ⟨h1, h2, h3, h4⟩
    · injection Except.ok.inj hs with hxa hxb
      subst hxa
      exact ⟨h1, h2, h3, h4⟩
  | close =>
    simp only [step] at hs
    rcases close_char s h1 h2 with ⟨hc, h⟩ | ⟨hc, ⟨q, hq⟩, h⟩ | ⟨hc, hq, h⟩ <;>
      rw [h] at hs <;>
      injection Except.ok.inj hs with hxa hxb <;>
      subst hxa
    · exact ⟨h1, h2, h3, h4⟩
    · exact ⟨rfl, h2, fun _ => rfl, fun _ => rfl⟩
    · exact ⟨rfl, rfl, fun _ => rfl, fun _ => rfl⟩
  | abort =>
    simp only [step] at hs
    rw [abort_eq h1 h2] at hs
    injection Except.ok.inj hs with hxa hxb
    subst hxa
    exact ⟨rfl, rfl, fun _ => rfl, fun _ => rfl⟩
  | pauseReading =>
    simp only [step] at hs
    injection Except.ok.inj hs with hxa hxb
    subst hxa
    exact wf_pause ⟨h1, h2, h3, h4⟩
  | resumeReading =>
    simp only [step] at hs
    injection Except.ok.inj hs with hxa hxb
    subst hxa
    exact wf_resume ⟨h1, h2, h3, h4⟩
  | readReady r k =>
    have hr : s.reader_registered = true := hv
    obtain ⟨hrd, hfd, hcl⟩ := reader_open ⟨h1, h2, h3, h4⟩ hr
    have main : ∀ data, read_result data k s = (s1, ev) → Wf s1 := by
      intro data hres
      rcases read_result_char data k s h1 h2 hcl with
        ⟨hne, h⟩ | ⟨hd0, hk, h⟩ | ⟨hd0, hk, ⟨q, hq⟩, h⟩ | ⟨hd0, hk, hq, h⟩ <;>
        rw [h] at hres <;>
        injection hres with hxa hxb <;>
        subst hxa
      · exact ⟨h1, h2, h3, h4⟩
      · exact ⟨rfl, h2, fun _ => rfl, fun _ => rfl⟩
      · exact ⟨rfl, h2, fun _ => rfl, fun _ => rfl⟩
      · exact ⟨rfl, rfl, fun _ => rfl, fun _ => rfl⟩
    cases r with
    | ok data =>
      simp only [step, read_ready] at hs
      exact main data (Except.ok.inj hs)
    | ioError =>
      simp only [step, read_ready] at hs
      cases heio : s.eio_is_eof <;> rw [heio] at hs
      · simp at hs
      · have hs2 : Except.ok (read_result [] k s) =
            (Except.ok (s1, ev) : Except Err (TState × List Event)) := by
          simpa using hs
        exact main [] (Except.ok.inj hs2)
  | writeReady r =>
    simp only [step] at hs
    rcases write_ready_char r s h1 h2 with ⟨hq, h⟩ |
      ⟨q, hq, ⟨hr, h⟩ | ⟨n, hr, ⟨hd, h⟩ | ⟨q2, hd, h⟩ | ⟨q2, hd, heo, hcl, h⟩ |
        ⟨q2, hd, heo, hcl, h⟩ | ⟨q2, hd, heo, hcl, h⟩ | ⟨q2, hd, heo, hcl, h⟩⟩⟩
    · rw [h] at hs; simp at hs
    · rw [abort_eq h1 h2] at h
      rw [h] at hs
      injection Except.ok.inj hs with hxa hxb
      subst hxa
      exact ⟨rfl, rfl, fun _ => rfl, fun _ => rfl⟩
    · rw [h] at hs; simp at hs
    · rw [h] at hs
      injection Except.ok.inj hs with hxa hxb
      subst hxa
      exact ⟨h1, by simp_all, h3, h4⟩
    · rw [h] at hs
      injection Except.ok.inj hs with hxa hxb
      subst hxa
      exact ⟨h1, rfl, h3, h4⟩
    · rw [h] at hs
      injection Except.ok.inj hs with hxa hxb
      subst hxa
      exact ⟨h1, rfl, h3, h4⟩
    · rw [h] at hs
      injection Except.ok.inj hs with hxa hxb
      subst hxa
      exact ⟨rfl, rfl, fun _ => rfl, fun _ => rfl⟩
    · rw [h] at hs
      injection Except.ok.inj hs with hxa hxb
      subst hxa
      exact ⟨rfl, rfl, fun _ => rfl, fun _ => rfl⟩

theorem step_trace {s s1 : TState} {op : Op} {ev : List Event}
    (hw : Wf s) (hv : validOp s op = true)
    (hs : step s op = Except.ok (s1, ev)) :
    (s.in_fd = -1 → s1.in_fd = -1) ∧
    altRun s.queue.isNone (flowTags ev) = some s1.queue.isNone ∧
    ((Event.pause_writing ∈ ev) ↔ (s.queue = none ∧ s1.queue ≠ none)) ∧
    ((Event.resume_writing ∈ ev) ↔ (s.queue ≠ none ∧ s1.queue = none)) ∧
    eofCount ev ≤ 1 ∧
    (eofCount ev = 1 → s1.in_fd = -1 ∧ s.in_fd ≠ -1) := by
  obtain ⟨h1, h2, h3, h4⟩ := hw
  cases op with
  | write d r =>
    simp only [step] at hs
    rcases write_char d r s with ⟨hc, h⟩ | ⟨hc, he, h⟩ |
      ⟨hc, he, ⟨q, hq, h⟩ | ⟨hq, hr, h⟩ | ⟨n, hq, hr, hn, h⟩ | ⟨n, hq, hr, hn, h⟩⟩ <;>
      rw [h] at hs
    · simp at hs
    · simp at hs
    · injection Except.ok.inj hs with hxa hxb
      subst hxa
      subst hxb
      simp_all [flowTags, flowTag, altRun, eofCount]
    · rw [abort_eq h1 h2, hq] at hs
      injection Except.ok.inj hs with hxa hxb
      subst hxa
      subst hxb
      simp_all [flowTags, flowTag, altRun, eofCount, isEofReceived]
    · injection Except.ok.inj hs with hxa hxb
      subst hxa
      subst hxb
      simp_all [flowTags, flowTag, altRun, eofCount, isEofReceived]
    · injection Except.ok.inj hs with hxa hxb
      subst hxa
      subst hxb
      simp_all [flowTags, flowTag, altRun, eofCount, isEofReceived]
  | writeEof =>
    simp only [step] at hs
    rcases write_eof_char s with ⟨he, h⟩ | ⟨he, hq, h⟩ | ⟨he, ⟨q, hq⟩, h⟩ <;>
      rw [h] at hs
    · simp at hs
    · injection Except.ok.inj hs with hxa hxb
      subst hxa
      subst hxb
      simp_all [flowTags, flowTag, altRun, eofCount, isEofReceived]
    · injection Except.ok.inj hs with hxa hxb
      subst hxa
      subst hxb
      simp_all [flowTags, flowTag, altRun, eofCount, isEofReceived]
  | close =>
    simp only [step] at hs
    rcases close_char s h1 h2 with ⟨hc, h⟩ | ⟨hc, ⟨q, hq⟩, h⟩ | ⟨hc, hq, h⟩ <;>
      rw [h] at hs <;>
      injection Except.ok.inj hs with hxa hxb <;>
      subst hxa <;> subst hxb <;>
      simp_all [flowTags, flowTag, altRun, eofCount, isEofReceived]
  | abort =>
    simp only [step] at hs
    rw [abort_eq h1 h2] at hs
    injection Except.ok.inj hs with hxa hxb
    subst hxa
    subst hxb
    cases hq : s.queue <;>
      simp_all [flowTags, flowTag, altRun, eofCount, isEofReceived]
  | pauseReading =>
    simp only [step] at hs
    injection Except.ok.inj hs with hxa hxb
    subst hxa
    subst hxb
    unfold pause_reading
    split <;> simp_all [flowTags, altRun, eofCount]
  | resumeReading =>
    simp only [step] at hs
    injection Except.ok.inj hs with hxa hxb
    subst hxa
    subst hxb
    unfold resume_reading
    split <;> simp_all [flowTags, altRun, eofCount]
  | readReady r k =>
    have hr : s.reader_registered = true := hv
    obtain ⟨hrd, hfd, hcl⟩ := reader_open ⟨h1, h2, h3, h4⟩ hr
    have main : ∀ data, read_result data k s = (s1, ev) →
        (s.in_fd = -1 → s1.in_fd = -1) ∧
        altRun s.queue.isNone (flowTags ev) = some s1.queue.isNone ∧
        ((Event.pause_writing ∈ ev) ↔ (s.queue = none ∧ s1.queue ≠ none)) ∧
        ((Event.resume_writing ∈ ev) ↔ (s.queue ≠ none ∧ s1.queue = none)) ∧
        eofCount ev ≤ 1 ∧
        (eofCount ev = 1 → s1.in_fd = -1 ∧ s.in_fd ≠ -1) := by
      intro data hres
      rcases read_result_char data k s h1 h2 hcl with
        ⟨hne, h⟩ | ⟨hd0, hk, h⟩ | ⟨hd0, hk, ⟨q, hq⟩, h⟩ | ⟨hd0, hk, hq, h⟩ <;>
        rw [h] at hres <;>
        injection hres with hxa hxb <;>
        subst hxa <;> subst hxb <;>
        simp_all [flowTags, flowTag, altRun, eofCount, isEofReceived]
    cases r with
    | ok data =>
      simp only [step, read_ready] at hs
      exact main data (Except.ok.inj hs)
    | ioError =>
      simp only [step, read_ready] at hs
      cases heio : s.eio_is_eof <;> rw [heio] at hs
      · simp at hs
      · have hs2 : Except.ok (read_result [] k s) =
            (Except.ok (s1, ev) : Except Err (TState × List Event)) := by
          simpa using hs
        exact main [] (Except.ok.inj hs2)
  | writeReady r =>
    simp only [step] at hs
    rcases write_ready_char r s h1 h2 with ⟨hq, h⟩ |
      ⟨q, hq, ⟨hr, h⟩ | ⟨n, hr, ⟨hd, h⟩ | ⟨q2, hd, h⟩ | ⟨q2, hd, heo, hcl, h⟩ |
        ⟨q2, hd, heo, hcl, h⟩ | ⟨q2, hd, heo, hcl, h⟩ | ⟨q2, hd, heo, hcl, h⟩⟩⟩
    · rw [h] at hs; simp at hs
    · rw [abort_eq h1 h2, hq] at h
      rw [h] at hs
      injection Except.ok.inj hs with hxa hxb
      subst hxa
      subst hxb
      simp_all [flowTags, flowTag, altRun, eofCount, isEofReceived]
    · rw [h] at hs; simp at hs
    all_goals
      rw [h] at hs
      injection Except.ok.inj hs with hxa hxb
      subst hxa
      subst hxb
      simp_all [flowTags, flowTag, altRun, eofCount, isEofReceived]

theorem dead_step {s s1 : TState} {op : Op} {ev : List Event}
    (hw : Wf s) (hv : validOp s op = true) (hg : guardOk s op = true)
    (hs : step s op = Except.ok (s1, ev)) (hd : Dead s) :
    Dead s1 ∧ ev.countP consumerEv = 0 := by
  obtain ⟨h1, h2, h3, h4⟩ := hw
  obtain ⟨hdc, hdq⟩ := hd
  cases op with
  | write d r =>
    simp only [step] at hs
    rcases write_char d r s with ⟨hc, h⟩ | ⟨hc, he, h⟩ |
      ⟨hc, he, ⟨q, hq, h⟩ | ⟨hq, hr, h⟩ | ⟨n, hq, hr, hn, h⟩ | ⟨n, hq, hr, hn, h⟩⟩ <;>
      rw [h] at hs <;> simp_all
  | writeEof =>
    simp only [step] at hs
    rcases write_eof_char s with ⟨he, h⟩ | ⟨he, hq, h⟩ | ⟨he, ⟨q, hq⟩, h⟩ <;>
      rw [h] at hs
    · simp at hs
    · injection Except.ok.inj hs with hxa hxb
      subst hxa
      subst hxb
      exact ⟨⟨hdc, hdq⟩, by simp [consumerEv]⟩
    · simp_all
  | close =>
    simp only [step] at hs
    rcases close_char s h1 h2 with ⟨hc, h⟩ | ⟨hc, ⟨q, hq⟩, h⟩ | ⟨hc, hq, h⟩ <;>
      rw [h] at hs
    · injection Except.ok.inj hs with hxa hxb
      subst hxa
      subst hxb
      exact ⟨⟨hdc, hdq⟩, by simp⟩
    · simp_all
    · simp_all
  | abort => simp_all [guardOk]
  | pauseReading =>
    simp only [step] at hs
    injection Except.ok.inj hs with hxa hxb
    subst hxa
    subst hxb
    unfold pause_reading
    split <;> exact ⟨⟨hdc, hdq⟩, by simp⟩
  | resumeReading =>
    simp only [step] at hs
    injection Except.ok.inj hs with hxa hxb
    subst hxa
    subst hxb
    unfold resume_reading
    split <;> exact ⟨⟨hdc, hdq⟩, by simp⟩
  | readReady r k =>
    have hr : s.reader_registered = true := hv
    obtain ⟨hrd, hfd, hcl⟩ := reader_open ⟨h1, h2, h3, h4⟩ hr
    simp_all
  | writeReady r =>
    have hwreg : s.writer_registered = true := by
      cases r <;> simp_all [validOp]
    rw [h2, hdq] at hwreg
    simp at hwreg

theorem live_step {s s1 : TState} {op : Op} {ev : List Event}
    (hw : Wf s) (hv : validOp s op = true) (hg : guardOk s op = true)
    (hs : step s op = Except.ok (s1, ev)) (hd : ¬ Dead s) :
    (clCount ev = 0 ∧ ¬ Dead s1) ∨
    (Dead s1 ∧ ∃ pre, ev = pre ++ [Event.connection_lost none] ∧ clCount pre = 0) := by
  obtain ⟨h1, h2, h3, h4⟩ := hw
  cases op with
  | write d r =>
    simp only [step] at hs
    rcases write_char d r s with ⟨hc, h⟩ | ⟨hc, he, h⟩ |
      ⟨hc, he, ⟨q, hq, h⟩ | ⟨hq, hr, h⟩ | ⟨n, hq, hr, hn, h⟩ | ⟨n, hq, hr, hn, h⟩⟩ <;>
      rw [h] at hs
    · simp at hs
    · simp at hs
    · injection Except.ok.inj hs with hxa hxb
      subst hxa
      subst hxb
      exact Or.inl ⟨rfl, by simp [Dead]⟩
    · rw [abort_eq h1 h2, hq] at hs
      injection Except.ok.inj hs with hxa hxb
      subst hxa
      subst hxb
      exact Or.inr ⟨⟨rfl, rfl⟩, [], by simp, rfl⟩
    · injection Except.ok.inj hs with hxa hxb
      subst hxa
      subst hxb
      exact Or.inl ⟨rfl, by simp [Dead, hc]⟩
    · injection Except.ok.inj hs with hxa hxb
      subst hxa
      subst hxb
      exact Or.inl ⟨rfl, by simp [Dead]⟩
  | writeEof =>
    simp only [step] at hs
    rcases write_eof_char s with ⟨he, h⟩ | ⟨he, hq, h⟩ | ⟨he, ⟨q, hq⟩, h⟩ <;>
      rw [h] at hs
    · simp at hs
    · injection Except.ok.inj hs with hxa hxb
      subst hxa
      subst hxb
      refine Or.inl ⟨by simp [clCount, isCL], fun hdd => hd ?_⟩
      exact ⟨hdd.1, hdd.2⟩
    · injection Except.ok.inj hs with hxa hxb
      subst hxa
      subst hxb
      refine Or.inl ⟨rfl, fun hdd => hd ⟨hdd.1, hdd.2⟩⟩
  | close =>
    simp only [step] at hs
    rcases close_char s h1 h2 with ⟨hc, h⟩ | ⟨hc, ⟨q, hq⟩, h⟩ | ⟨hc, hq, h⟩ <;>
      rw [h] at hs <;>
      injection Except.ok.inj hs with hxa hxb <;>
      subst hxa <;> subst hxb
    · exact Or.inl ⟨rfl, hd⟩
    · exact Or.inl ⟨rfl, by simp [Dead, hq]⟩
    · exact Or.inr ⟨⟨rfl, rfl⟩, [], by simp, rfl⟩
  | abort =>
    simp only [step] at hs
    rw [abort_eq h1 h2] at hs
    injection Except.ok.inj hs with hxa hxb
    subst hxa
    subst hxb
    cases hq : s.queue with
    | none =>
      refine Or.inr ⟨⟨rfl, rfl⟩, [], by simp [hq], rfl⟩
    | some q =>
      refine Or.inr ⟨⟨rfl, rfl⟩, [Event.resume_writing], by simp [hq],
        by simp [clCount, isCL]⟩
  | pauseReading =>
    simp only [step] at hs
    injection Except.ok.inj hs with hxa hxb
    subst hxa
    subst hxb
    refine Or.inl ⟨rfl, fun hdd => hd ?_⟩
    unfold pause_reading at hdd
    revert hdd
    split <;> exact fun hdd => ⟨hdd.1, hdd.2⟩
  | resumeReading =>
    simp only [step] at hs
    injection Except.ok.inj hs with hxa hxb
    subst hxa
    subst hxb
    refine Or.inl ⟨rfl, fun hdd => hd ?_⟩
    unfold resume_reading at hdd
    revert hdd
    split <;> exact fun hdd => ⟨hdd.1, hdd.2⟩
  | readReady r k =>
    have hr : s.reader_registered = true := hv
    obtain ⟨hrd, hfd, hcl⟩ := reader_open ⟨h1, h2, h3, h4⟩ hr
    have main : ∀ data, read_result data k s = (s1, ev) →
        (clCount ev = 0 ∧ ¬ Dead s1) ∨
        (Dead s1 ∧ ∃ pre, ev = pre ++ [Event.connection_lost none] ∧ clCount pre = 0) := by
      intro data hres
      rcases read_result_char data k s h1 h2 hcl with
        ⟨hne, h⟩ | ⟨hd0, hk, h⟩ | ⟨hd0, hk, ⟨q, hq⟩, h⟩ | ⟨hd0, hk, hq, h⟩ <;>
        rw [h] at hres <;>
        injection hres with hxa hxb <;>
        subst hxa <;> subst hxb
      · exact Or.inl ⟨by simp [clCount, isCL], hd⟩
      · exact Or.inl ⟨by simp [clCount, isCL], by simp [Dead, hcl]⟩
      · exact Or.inl ⟨by simp [clCount, isCL], by simp [Dead, hq]⟩
      · exact Or.inr ⟨⟨rfl, rfl⟩, [Event.eof_received], rfl, by simp [clCount, isCL]⟩
    cases r with
    | ok data =>
      simp only [step, read_ready] at hs
      exact main data (Except.ok.inj hs)
    | ioError =>
      simp only [step, read_ready] at hs
      cases heio : s.eio_is_eof <;> rw [heio] at hs
      · simp at hs
      · have hs2 : Except.ok (read_result [] k s) =
            (Except.ok (s1, ev) : Except Err (TState × List Event)) := by
          simpa using hs
        exact main [] (Except.ok.inj hs2)
  | writeReady r =>
    simp only [step] at hs
    rcases write_ready_char r s h1 h2 with ⟨hq, h⟩ |
      ⟨q, hq, ⟨hr, h⟩ | ⟨n, hr, ⟨hdn, h⟩ | ⟨q2, hdn, h⟩ | ⟨q2, hdn, heo, hcl, h⟩ |
        ⟨q2, hdn, heo, hcl, h⟩ | ⟨q2, hdn, heo, hcl, h⟩ | ⟨q2, hdn, heo, hcl, h⟩⟩⟩
    · rw [h] at hs; simp at hs
    · rw [abort_eq h1 h2, hq] at h
      rw [h] at hs
      injection Except.ok.inj hs with hxa hxb
      subst hxa
      subst hxb
      exact Or.inr ⟨⟨rfl, rfl⟩, [Event.resume_writing], rfl, by simp [clCount, isCL]⟩
    · rw [h] at hs; simp at hs
    · rw [h] at hs
      injection Except.ok.inj hs with hxa hxb
      subst hxa
      subst hxb
      exact Or.inl ⟨by simp [clCount, isCL], by simp [Dead]⟩
    · rw [h] at hs
      injection Except.ok.inj hs with hxa hxb
      subst hxa
      subst hxb
      exact Or.inl ⟨by simp [clCount, isCL], by simp [Dead, hcl]⟩
    · rw [h] at hs
      injection Except.ok.inj hs with hxa hxb
      subst hxa
      subst hxb
      exact Or.inl ⟨by simp [clCount, isCL], by simp [Dead, hcl]⟩
    · rw [h] at hs
      injection Except.ok.inj hs with hxa hxb
      subst hxa
      subst hxb
      exact Or.inr ⟨⟨rfl, rfl⟩,
        [Event.kernel_accepted (q.flatten.take n), Event.resume_writing], rfl,
        by simp [clCount, isCL]⟩
    · rw [h] at hs
      injection Except.ok.inj hs with hxa hxb
      subst hxa
      subst hxb
      exact Or.inr ⟨⟨rfl, rfl⟩,
        [Event.kernel_accepted (q.flatten.take n), Event.resume_writing,
         Event.write_eof_now], rfl,
        by simp [clCount, isCL]⟩

theorem eofCount_append (a b : List Event) :
    eofCount (a ++ b) = eofCount a + eofCount b := by
  simp [eofCount, List.countP_append]

theorem clCount_append (a b : List Event) :
    clCount (a ++ b) = clCount a + clCount b := by
  simp [clCount, List.countP_append]

theorem flowTags_append (a b : List Event) :
    flowTags (a ++ b) = flowTags a ++ flowTags b := by
  simp [flowTags, List.filterMap_append]

theorem altRun_append {b c : Bool} {xs : List Bool} (ys : List Bool)
    (h : altRun b xs = some c) : altRun b (xs ++ ys) = altRun c ys := by
  induction xs generalizing b with
  | nil =>
    simp only [altRun] at h
    injection h with h
    subst h
    rfl
  | cons x xs ih =>
    by_cases hx : x = b
    · simp only [List.cons_append, altRun, hx, if_pos] at h ⊢
      exact ih h
    · simp [altRun, hx] at h

theorem steps_wf {s s2 : TState} {ops : List Op} {tr : List Event}
    (h : Steps s ops s2 tr) (hw : Wf s) : Wf s2 := by
  induction h with
  | nil _ => exact hw
  | cons hv hst hrest ih => exact ih (wf_step hw hv hst)

theorem steps_fd {s s2 : TState} {ops : List Op} {tr : List Event}
    (h : Steps s ops s2 tr) : Wf s → s.in_fd = -1 → s2.in_fd = -1 := by
  induction h with
  | nil _ => exact fun _ hfd => hfd
  | cons hv hst hrest ih =>
    intro hw hfd
    exact ih (wf_step hw hv hst) ((step_trace hw hv hst).1 hfd)

theorem steps_eof {s s2 : TState} {ops : List Op} {tr : List Event}
    (h : Steps s ops s2 tr) : Wf s →
    (s.in_fd = -1 → eofCount tr = 0) ∧ eofCount tr ≤ 1 ∧
    (eofCount tr = 1 → s2.in_fd = -1) := by
  induction h with
  | nil _ =>
    exact fun _ => ⟨fun _ => rfl, by simp [eofCount], by simp [eofCount]⟩
  | @cons sa s1 s2a op ops2 ev tr2 hv hst hrest ih =>
    intro hw
    have hw1 := wf_step hw hv hst
    obtain ⟨habs, -, -, -, hle, hone⟩ := step_trace hw hv hst
    obtain ⟨ih1, ih2, ih3⟩ := ih hw1
    refine ⟨?_, ?_, ?_⟩
    · intro hfd
      have h0 : eofCount ev = 0 := by
        rcases Nat.lt_or_ge (eofCount ev) 1 with hlt | hge
        · omega
        · exact absurd hfd (hone (by omega)).2
      rw [eofCount_append, h0, ih1 (habs hfd)]
    · rw [eofCount_append]
      rcases Nat.eq_zero_or_pos (eofCount ev) with h0 | hpos
      · rw [h0]; omega
      · have h1 : eofCount ev = 1 := by omega
        have htr0 : eofCount tr2 = 0 := ih1 (hone h1).1
        omega
    · intro htot
      rw [eofCount_append] at htot
      rcases Nat.eq_zero_or_pos (eofCount ev) with h0 | hpos
      · exact ih3 (by omega)
      · have h1 : eofCount ev = 1 := by omega
        exact steps_fd hrest hw1 (hone h1).1

theorem steps_flow {s s2 : TState} {ops : List Op} {tr : List Event}
    (h : Steps s ops s2 tr) : Wf s →
    altRun s.queue.isNone (flowTags tr) = some s2.queue.isNone := by
  induction h with
  | nil _ => exact fun _ => rfl
  | cons hv hst hrest ih =>
    intro hw
    rw [flowTags_append, altRun_append _ (step_trace hw hv hst).2.1]
    exact ih (wf_step hw hv hst)

theorem gsteps_cl {s s2 : TState} {ops : List Op} {tr : List Event}
    (h : GSteps s ops s2 tr) : Wf s →
    (Dead s → Dead s2 ∧ tr.countP consumerEv = 0) ∧
    (¬ Dead s →
      (¬ Dead s2 ∧ clCount tr = 0) ∨
      (Dead s2 ∧ ∃ pre post, tr = pre ++ Event.connection_lost none :: post ∧
        clCount pre = 0 ∧ post.countP consumerEv = 0)) := by
  induction h with
  | nil _ =>
    exact fun _ => ⟨fun hd => ⟨hd, rfl⟩, fun hnd => Or.inl ⟨hnd, rfl⟩⟩
  | @cons sa s1 s2a op ops2 ev tr2 hv hg hst hrest ih =>
    intro hw
    have hw1 := wf_step hw hv hst
    obtain ⟨ihD, ihL⟩ := ih hw1
    constructor
    · intro hd
      obtain ⟨hd1, hev⟩ := dead_step hw hv hg hst hd
      obtain ⟨hd2, htr⟩ := ihD hd1
      refine ⟨hd2, ?_⟩
      rw [List.countP_append, hev, htr]
    · intro hnd
      rcases live_step hw hv hg hst hnd with ⟨hcl0, hnd1⟩ | ⟨hd1, pre, hpre, hclpre⟩
      · rcases ihL hnd1 with ⟨hnd2, hcl1⟩ | ⟨hd2, pre, post, htr, hclp, hpost⟩
        · refine Or.inl ⟨hnd2, ?_⟩
          rw [clCount_append, hcl0, hcl1]
        · refine Or.inr ⟨hd2, ev ++ pre, post, ?_, ?_, hpost⟩
          · rw [htr, List.append_assoc]
          · rw [clCount_append, hcl0, hclp]
      · obtain ⟨hd2, htr2⟩ := ihD hd1
        refine Or.inr ⟨hd2, pre, tr2, ?_, hclpre, htr2⟩
        rw [hpre, List.append_assoc]
        rfl

theorem runList_steps : ∀ (ops : List Op) (s s2 : TState) (tr : List Event),
    runList s ops = some (s2, tr) → Steps s ops s2 tr := by
  intro ops
  induction ops with
  | nil =>
    intro s s2 tr h
    simp only [runList, Option.some.injEq, Prod.mk.injEq] at h
    obtain ⟨h1, h2⟩ := h
    subst h1
    subst h2
    exact Steps.nil s
  | cons op ops ih =>
    intro s s2 tr h
    unfold runList at h
    split at h
    case isTrue hv =>
      split at h
      case h_1 s1 ev heq =>
        split at h
        case h_1 s2a tra hrun =>
          simp only [Option.some.injEq, Prod.mk.injEq] at h
          obtain ⟨h1, h2⟩ := h
          subst h1
          subst h2
          exact Steps.cons hv heq (ih s1 s2a tra hrun)
        case h_2 => exact absurd h (by simp)
      case h_2 => exact absurd h (by simp)
    case isFalse => exact absurd h (by simp)

theorem afterFirstCL_of_no_cl {tr : List Event} (h : clCount tr = 0) :
    afterFirstCL tr = [] := by
  induction tr with
  | nil => rfl
  | cons e tr ih =>
    simp only [clCount, List.countP_cons] at h
    have he : isCL e = false := by
      by_contra hb
      rw [Bool.not_eq_false] at hb
      simp [hb] at h
    have h0 : clCount tr = 0 := by
      simpa [clCount, he] using h
    have heq : afterFirstCL (e :: tr) = afterFirstCL tr := by
      simp [afterFirstCL, List.dropWhile, he]
    rw [heq]
    exact ih h0

theorem afterFirstCL_split {pre : List Event} {post : List Event}
    (h : clCount pre = 0) :
    afterFirstCL (pre ++ Event.connection_lost none :: post) = post := by
  induction pre with
  | nil => simp [afterFirstCL, List.dropWhile, isCL]
  | cons e pre ih =>
    simp only [clCount, List.countP_cons] at h
    have he : isCL e = false := by
      by_contra hb
      rw [Bool.not_eq_false] at hb
      simp [hb] at h
    have h0 : clCount pre = 0 := by
      simpa [clCount, he] using h
    have heq : afterFirstCL ((e :: pre) ++ Event.connection_lost none :: post) =
        afterFirstCL (pre ++ Event.connection_lost none :: post) := by
      simp [afterFirstCL, List.dropWhile, he]
    rw [heq]
    exact ih h0

theorem cl_le_consumer (l : List Event) : clCount l ≤ l.countP consumerEv := by
  induction l with
  | nil => exact Nat.le_refl 0
  | cons e l ih =>
    simp only [clCount, List.countP_cons] at ih ⊢
    have hle : (if isCL e = true then 1 else 0) ≤
        (if consumerEv e = true then 1 else 0) := by
      cases e <;> simp [isCL, consumerEv]
    omega

theorem wf_init (a b : Int) (e : Bool) : Wf (initState a b e).1 :=
  wf_resume ⟨rfl, rfl, fun _ => rfl, fun h => Bool.noConfusion h⟩

theorem init_closing (a b : Int) (e : Bool) : (initState a b e).1.closing = false := by
  unfold initState resume_reading
  dsimp only
  split <;> rfl

theorem init_not_dead (a b : Int) (e : Bool) : ¬ Dead (initState a b e).1 := by
  intro hd
  have h := init_closing a b e
  rw [hd.1] at h
  exact Bool.noConfusion h

theorem init_queue (a b : Int) (e : Bool) : (initState a b e).1.queue = none := by
  unfold initState resume_reading
  dsimp only
  split <;> rfl

theorem init_eio (a b : Int) (e : Bool) : (initState a b e).1.eio_is_eof = e := by
  unfold initState resume_reading
  dsimp only
  split <;> rfl

/-- Claim C1 (code bug).  The claim says the bytes accepted by the kernel
across the synchronous write and all write-readiness drains concatenate
exactly to the written chunks, with a partially-written block split and its
remainder kept at the head of the queue.  The code's `while n_bytes:` loop
in `_write_ready` uses an `else:` clause that runs whenever the accepted
count is exhausted — including when it lands exactly on a block boundary
with blocks still queued — and `_remove_write_queue()` then discards the
remainder.  Failing input: chunks `[0,1]` and `[2,3]` are queued (the first
`os.write` accepts 0 bytes) and the drain's `writev` accepts exactly 2
bytes: the block `[2,3]` is silently dropped (final queue `none`, writer
unregistered, `resume_writing` signalled), and only `[0,1]` was ever
accepted by the kernel. -/
theorem C1_boundary_drain_discards_block :
    runTrace (initState 3 4 false).1
        [Op.write [0, 1] (WriteRes.ok 0), Op.write [2, 3] (WriteRes.ok 0),
         Op.writeReady (WriteRes.ok 2)] =
      some [Event.kernel_accepted [], Event.pause_writing,
        Event.kernel_accepted [0, 1], Event.resume_writing] ∧
    acceptedBytes [Event.kernel_accepted [], Event.pause_writing,
        Event.kernel_accepted [0, 1], Event.resume_writing] = [0, 1] ∧
    runFinal (initState 3 4 false).1
        [Op.write [0, 1] (WriteRes.ok 0), Op.write [2, 3] (WriteRes.ok 0),
         Op.writeReady (WriteRes.ok 2)] =
      some { queue := none, in_fd := 3, out_fd := 4, closing := false,
             is_reading := true, eof := false, eio_is_eof := false,
             reader_registered := true, writer_registered := false } :=
  ⟨rfl, rfl, rfl⟩

/-- Claim C2 (code bug).  The claim says the deferred half-close action is
never performed before all write blocks queued prior to `write_eof()` have
been fully flushed.  Failing input: with blocks `[0,1]` and `[2,3]` queued
and write-EOF requested, a drain whose `writev` accepts exactly 2 bytes
runs the loop's `else:` clause, discards `[2,3]`, and performs
`_write_eof_now()` even though `[2,3]` — queued before the `write_eof()`
call — was never accepted by the kernel. -/
theorem C2_half_close_before_flush :
    runTrace (initState 3 4 false).1
        [Op.write [0, 1] (WriteRes.ok 0), Op.write [2, 3] (WriteRes.ok 0),
         Op.writeEof, Op.writeReady (WriteRes.ok 2)] =
      some [Event.kernel_accepted [], Event.pause_writing,
        Event.kernel_accepted [0, 1], Event.resume_writing,
        Event.write_eof_now] ∧
    acceptedBytes [Event.kernel_accepted [], Event.pause_writing,
        Event.kernel_accepted [0, 1], Event.resume_writing,
        Event.write_eof_now] = [0, 1] ∧
    runFinal (initState 3 4 false).1
        [Op.write [0, 1] (WriteRes.ok 0), Op.write [2, 3] (WriteRes.ok 0),
         Op.writeEof, Op.writeReady (WriteRes.ok 2)] =
      some { queue := none, in_fd := 3, out_fd := 4, closing := false,
             is_reading := true, eof := true, eio_is_eof := false,
             reader_registered := true, writer_registered := false } :=
  ⟨rfl, rfl, rfl⟩

/-- Claim C3 (confirmed).  A synchronous `write()` on an open transport
whose kernel write raises `BrokenPipeError` aborts the transport
immediately: reading stops, the in-fd is invalidated, the transport is
closing with no queue, the consumer is notified via `connection_lost(None)`
(the only emitted event — no error payload, no exception surfaced, no
kernel bytes accepted: the data is silently dropped). -/
theorem C3_broken_pipe_write_aborts (s : TState) (data : Bytes)
    (hw : Wf s) (hc : s.closing = false) (he : s.eof = false)
    (hq : s.queue = none) :
    write data WriteRes.brokenPipe s =
      Except.ok
        ({ s with
            closing := true
            in_fd := -1
            is_reading := false
            reader_registered := false
            writer_registered := false
            queue := none },
         [Event.connection_lost none]) := by
  obtain ⟨h1, h2, h3, h4⟩ := hw
  unfold write
  rw [abort_eq h1 h2]
  simp [hc, he, hq]

/-- Witness for C3 at a concrete open transport. -/
theorem C3_broken_pipe_write_aborts_witness :
    write [9] WriteRes.brokenPipe (initState 3 4 false).1 =
      Except.ok
        ({ queue := none, in_fd := -1, out_fd := 4, closing := true,
           is_reading := false, eof := false, eio_is_eof := false,
           reader_registered := false, writer_registered := false },
         [Event.connection_lost none]) :=
  C3_broken_pipe_write_aborts (initState 3 4 false).1 [9] (by decide) rfl rfl rfl

/-- Claim C4, counterexample.  `abort()` is unguarded: calling it twice on
the same transport calls `connection_lost(None)` twice, so the claim that
the consumer's `connection_lost` is invoked exactly once over every
operation sequence (explicitly including repeated `abort()` calls) is
false. -/
theorem C4_counterexample_double_abort :
    runTrace (initState 3 4 false).1 [Op.abort, Op.abort] =
      some [Event.connection_lost none, Event.connection_lost none] ∧
    clCount [Event.connection_lost none, Event.connection_lost none] = 2 :=
  ⟨rfl, rfl⟩

/-- Claim C4 as amended (corrected): along every environment-consistent run
in which `abort()` is never invoked on an already-closing transport,
`connection_lost` is invoked at most once, and it is terminal — no consumer
callback follows the first `connection_lost` event. -/
theorem C4_connection_lost_once_and_terminal (a b : Int) (e : Bool)
    (ops : List Op) (s2 : TState) (tr : List Event)
    (h : GSteps (initState a b e).1 ops s2 tr) :
    clCount tr ≤ 1 ∧ (afterFirstCL tr).countP consumerEv = 0 := by
  rcases (gsteps_cl h (wf_init a b e)).2 (init_not_dead a b e) with
    ⟨-, hcl⟩ | ⟨-, pre, post, htr, hclp, hpost⟩
  · constructor
    · rw [hcl]; exact Nat.zero_le 1
    · rw [afterFirstCL_of_no_cl hcl]; rfl
  · subst htr
    have hpostcl : clCount post = 0 :=
      Nat.le_zero.mp (hpost ▸ cl_le_consumer post)
    constructor
    · rw [clCount_append, hclp]
      have hcons : clCount (Event.connection_lost none :: post) =
          clCount post + 1 := by
        simp [clCount, List.countP_cons, isCL]
      omega
    · rw [afterFirstCL_split hclp]
      exact hpost

/-- Witness for the amended C4: a concrete guarded run (a single `close()`
on an open transport). -/
theorem C4_connection_lost_once_and_terminal_witness :
    clCount [Event.connection_lost none] ≤ 1 ∧
    (afterFirstCL [Event.connection_lost none]).countP consumerEv = 0 := by
  have hstep : GSteps (initState 3 4 false).1 [Op.close]
      (close (initState 3 4 false).1).1
      ((close (initState 3 4 false).1).2 ++ []) :=
    GSteps.cons (by decide) (by decide) rfl (GSteps.nil _)
  exact C4_connection_lost_once_and_terminal 3 4 false [Op.close] _ _ hstep

/-- Claim C5, counterexample.  After `pause_reading()` on a freshly created
transport the reading flag is false and the reader is unregistered, yet
`in_fd = 3 ≠ -1`, so the claimed three-way equivalence
`reading ↔ registered ↔ in_fd ≠ -1` fails in a reachable state. -/
theorem C5_counterexample_pause_reading :
    runFinal (initState 3 4 false).1 [Op.pauseReading] =
      some { queue := none, in_fd := 3, out_fd := 4, closing := false,
             is_reading := false, eof := false, eio_is_eof := false,
             reader_registered := false, writer_registered := false } ∧
    (3 : Int) ≠ -1 :=
  ⟨rfl, by decide⟩

/-- Claim C5 as amended (corrected): in every reachable transport state the
reading flag holds iff the in-fd is registered with the reactor, and an
invalidated in-fd (`in_fd = -1`) implies the transport is not reading; the
converse direction (`in_fd ≠ -1` implies reading) does not hold after
`pause_reading()`. -/
theorem C5_reading_iff_registered (a b : Int) (e : Bool)
    (ops : List Op) (s2 : TState) (tr : List Event)
    (h : Steps (initState a b e).1 ops s2 tr) :
    s2.reader_registered = s2.is_reading ∧
    (s2.in_fd = -1 → s2.is_reading = false) := by
  obtain ⟨h1, h2, h3, h4⟩ := steps_wf h (wf_init a b e)
  exact ⟨h1, h3⟩

/-- Witness for the amended C5 at a concrete run. -/
theorem C5_reading_iff_registered_witness :
    ((pause_reading (initState 3 4 false).1).reader_registered =
      (pause_reading (initState 3 4 false).1).is_reading) ∧
    ((pause_reading (initState 3 4 false).1).in_fd = -1 →
      (pause_reading (initState 3 4 false).1).is_reading = false) := by
  have hstep : Steps (initState 3 4 false).1 [Op.pauseReading]
      (pause_reading (initState 3 4 false).1) ([] ++ []) :=
    Steps.cons (by decide) rfl (Steps.nil _)
  exact C5_reading_iff_registered 3 4 false [Op.pauseReading] _ _ hstep

/-- Claim C6, counterexample.  `write_eof()` does not check `_closing`: on
a transport that is already closing (after `close()`) but has no write-EOF
requested, `write_eof()` succeeds silently and even performs the half-close
action, instead of failing its precondition. -/
theorem C6_counterexample_write_eof_while_closing :
    (close (initState 3 4 false).1).1.closing = true ∧
    write_eof (close (initState 3 4 false).1).1 =
      Except.ok
        ({ queue := none, in_fd := -1, out_fd := 4, closing := true,
           is_reading := false, eof := true, eio_is_eof := false,
           reader_registered := false, writer_registered := false },
         [Event.write_eof_now]) :=
  ⟨rfl, rfl⟩

/-- Claim C6 as amended (corrected): `write_eof()` fails its precondition
(raises `AssertionError`) exactly when write-EOF has already been
requested; the closing state alone never makes it fail. -/
theorem C6_write_eof_fails_iff_eof_requested (s : TState) :
    write_eof s = Except.error Err.assertionError ↔ s.eof = true := by
  unfold write_eof
  cases he : s.eof
  · cases hq : s.queue <;> simp_all
  · simp

/-- Claim C7 (confirmed).  A zero-length read stops reading and invalidates
the in-fd, emits exactly one `eof_received` call (and the readiness path
treats the zero-length kernel result exactly this way); if the consumer
returns false, `close()` is initiated (the transport is closing, and with
no queue outstanding `connection_lost(None)` follows immediately); if the
consumer returns true, subsequent writes still succeed; and over any
environment-consistent run from a fresh transport, `eof_received` is
called at most once. -/
theorem C7_zero_read_eof_protocol :
    (∀ (s : TState) (keep_open : Bool), Wf s → s.reader_registered = true →
      (read_result [] keep_open s).1.is_reading = false ∧
      (read_result [] keep_open s).1.in_fd = -1 ∧
      eofCount (read_result [] keep_open s).2 = 1 ∧
      read_ready (ReadRes.ok []) keep_open s =
        Except.ok (read_result [] keep_open s) ∧
      (keep_open = false → (read_result [] keep_open s).1.closing = true ∧
        (s.queue = none →
          Event.connection_lost none ∈ (read_result [] keep_open s).2)) ∧
      (keep_open = true → s.eof = false →
        ∀ (d : Bytes) (r : WriteRes),
          (write d r (read_result [] keep_open s).1).toOption.isSome = true)) ∧
    (∀ (a b : Int) (e : Bool) (ops : List Op) (s2 : TState) (tr : List Event),
      Steps (initState a b e).1 ops s2 tr → eofCount tr ≤ 1) := by
  constructor
  · intro s keep_open hw hreg
    obtain ⟨h1, h2, h3, h4⟩ := hw
    obtain ⟨hrd, hfd, hcl⟩ := reader_open ⟨h1, h2, h3, h4⟩ hreg
    have hwrite : ∀ (t : TState), t.closing = false → t.eof = false →
        ∀ (d : Bytes) (r : WriteRes),
        (write d r t).toOption.isSome = true := by
      intro t htc hte d r
      unfold write
      simp only [htc, hte, Bool.false_eq_true, if_false]
      cases hq : t.queue with
      | some q => simp [Except.toOption]
      | none =>
        cases r with
        | brokenPipe => simp [Except.toOption]
        | ok n =>
          by_cases hn : n = d.length <;>
            simp [hn, create_write_queue, Except.toOption]
    rcases read_result_char [] keep_open s h1 h2 hcl with
      ⟨hne, h⟩ | ⟨hd0, hk, h⟩ | ⟨hd0, hk, ⟨q, hq⟩, h⟩ | ⟨hd0, hk, hq, h⟩
    · exact absurd rfl hne
    · subst hk
      rw [h]
      refine ⟨rfl, rfl, rfl, congrArg Except.ok h, ?_, ?_⟩
      · intro hcontra
        cases hcontra
      · intro _ he2 d r
        exact hwrite
          { s with in_fd := -1, is_reading := false, reader_registered := false }
          hcl he2 d r
    · subst hk
      rw [h]
      refine ⟨rfl, rfl, rfl, congrArg Except.ok h, ?_, ?_⟩
      · intro _
        refine ⟨rfl, fun hqn => ?_⟩
        rw [hqn] at hq
        cases hq
      · intro hcontra
        cases hcontra
    · subst hk
      rw [h]
      refine ⟨rfl, rfl, rfl, congrArg Except.ok h, ?_, ?_⟩
      · intro _
        exact ⟨rfl, fun _ => by simp⟩
      · intro hcontra
        cases hcontra
  · intro a b e ops s2 tr h
    exact (steps_eof h (wf_init a b e)).2.1

/-- Witness for C7 at a concrete transport with a zero-length read. -/
theorem C7_zero_read_eof_protocol_witness :
    eofCount (read_result [] true (initState 5 6 false).1).2 = 1 :=
  (C7_zero_read_eof_protocol.1 (initState 5 6 false).1 true (by decide) rfl).2.2.1

/-- Claim C8 (confirmed).  An `IOError` from the readiness-driven read is
handled exactly like a zero-length read when the transport is flagged with
`_eio_is_eof` (which `SubprocessTransport.__init__` sets exactly in the PTY
case), and is re-raised as fatal otherwise. -/
theorem C8_read_ioerror_eof_or_fatal (s : TState) (keep_open : Bool) :
    (s.eio_is_eof = true →
      read_ready ReadRes.ioError keep_open s =
        read_ready (ReadRes.ok []) keep_open s) ∧
    (s.eio_is_eof = false →
      read_ready ReadRes.ioError keep_open s = Except.error Err.ioError) ∧
    (∀ (ks : Option StdioArg) (p q u v w : Int),
      (subprocess_init true ks p q u v w).1.base.eio_is_eof = true) := by
  refine ⟨?_, ?_, ?_⟩
  · intro h
    simp [read_ready, h]
  · intro h
    simp [read_ready, h]
  · intro ks p q u v w
    exact init_eio p p true

/-- Witness for C8 on a concrete PTY-flagged transport. -/
theorem C8_read_ioerror_eof_or_fatal_witness :
    read_ready ReadRes.ioError true (initState 5 5 true).1 =
      read_ready (ReadRes.ok []) true (initState 5 5 true).1 :=
  (C8_read_ioerror_eof_or_fatal (initState 5 5 true).1 true).1 rfl

/-- Claim C9 (confirmed).  Over any environment-consistent run from a fresh
transport, the `pause_writing`/`resume_writing` calls strictly alternate
starting with `pause_writing` (and their parity matches the queue's
presence in the final state); moreover in any single valid step,
`pause_writing` is emitted exactly when that step creates the write queue
and `resume_writing` exactly when it removes it. -/
theorem C9_flow_control_alternation (a b : Int) (e : Bool)
    (ops : List Op) (s2 : TState) (tr : List Event)
    (h : Steps (initState a b e).1 ops s2 tr) :
    altRun true (flowTags tr) = some s2.queue.isNone ∧
    (∀ (s s1 : TState) (op : Op) (ev : List Event),
      Wf s → validOp s op = true → step s op = Except.ok (s1, ev) →
      ((Event.pause_writing ∈ ev) ↔ (s.queue = none ∧ s1.queue ≠ none)) ∧
      ((Event.resume_writing ∈ ev) ↔ (s.queue ≠ none ∧ s1.queue = none))) := by
  constructor
  · have hflow := steps_flow h (wf_init a b e)
    rw [init_queue a b e] at hflow
    exact hflow
  · intro s s1 op ev hw hv hs
    exact ⟨(step_trace hw hv hs).2.2.1, (step_trace hw hv hs).2.2.2.1⟩

/-- Witness for C9: a concrete run with one partial write and one full
drain emits exactly one pause/resume pair in order. -/
theorem C9_flow_control_alternation_witness :
    altRun true (flowTags [Event.kernel_accepted [1], Event.pause_writing,
      Event.kernel_accepted [2], Event.resume_writing]) = some true :=
  (C9_flow_control_alternation 3 4 false
    [Op.write [1, 2] (WriteRes.ok 1), Op.writeReady (WriteRes.ok 1)] _ _
    (runList_steps _ _ _ _ rfl)).1

/-- Claim C10 (confirmed).  A `SubprocessTransport` created with a PTY
attaches the child's stderr to the PTY subordinate `session_fd` rather
than a pipe, so `process.stderr` is `None`, no `Spooler` is created and
`get_stderr()` always returns the empty byte string; `can_write_eof()` is
false, and the half-close action `_write_eof_now()` is a no-op leaving the
whole transport state (in particular `out_fd`) unchanged. -/
theorem C10_pty_subprocess (ks : Option StdioArg)
    (pty_fd session_fd stdout_fd stdin_fd dup_fd : Int) (ready : List Bytes) :
    (subprocess_init true ks pty_fd session_fd stdout_fd stdin_fd dup_fd).2.stderrArg =
      some (StdioArg.fd session_fd) ∧
    (subprocess_init true ks pty_fd session_fd stdout_fd stdin_fd dup_fd).1.stderr_spooler =
      none ∧
    get_stderr (subprocess_init true ks pty_fd session_fd stdout_fd stdin_fd dup_fd).1
      ready = [] ∧
    can_write_eof (subprocess_init true ks pty_fd session_fd stdout_fd stdin_fd dup_fd).1 =
      false ∧
    subprocess_write_eof_now
        (subprocess_init true ks pty_fd session_fd stdout_fd stdin_fd dup_fd).1 =
      (subprocess_init true ks pty_fd session_fd stdout_fd stdin_fd dup_fd).1 :=
  ⟨rfl, rfl, rfl, rfl, rfl⟩

end Cockpit
